import Mathlib

/-!
Verification of the Nifty analysis core (`src/lib/niftyAnalysis.ts`).

The TypeScript core is a pure transform from an ordered list of OHLC candles
to (a) an enriched list of indicator points (SMA 10/20/50, RSI 14) and
(b) a single summary analysis record.  We embed it shallowly over `ℚ`
(idealised exact arithmetic in place of IEEE doubles), keeping the source's
names and control structure.  JavaScript's `Math.round` rounds half toward
positive infinity, which we model as `⌊x + 1/2⌋`.
-/

namespace Nifty

/-- JavaScript `Math.round`: nearest integer, ties toward positive infinity. -/
def mathRound (x : ℚ) : ℤ := ⌊x + 1/2⌋

/-- Source `round(value, digits = 2)`:
`const factor = 10 ** digits; return Math.round(value * factor) / factor;` -/
def round (value : ℚ) (digits : ℕ := 2) : ℚ :=
  let factor : ℚ := 10 ^ digits
  (mathRound (value * factor) : ℚ) / factor

/-- Input candle: one trading day of OHLC data (`Candle` interface). -/
structure Candle where
  date : String
  open_ : ℚ
  high : ℚ
  low : ℚ
  close : ℚ
  volume : Option ℚ := none
deriving DecidableEq, Repr, Inhabited

/-- Output of the indicator engine: a candle enriched with optional
SMA 10/20/50 and RSI 14 (`IndicatorPoint` interface; `undefined` ↦ `none`). -/
structure IndicatorPoint where
  date : String
  open_ : ℚ
  high : ℚ
  low : ℚ
  close : ℚ
  volume : Option ℚ
  sma10 : Option ℚ
  sma20 : Option ℚ
  sma50 : Option ℚ
  rsi14 : Option ℚ
deriving DecidableEq, Repr, Inhabited

/-- `windowSlice(period) = closes.slice(Math.max(0, index - period + 1), index + 1)`.
JS `slice(a, b)` keeps indices `[a, b)`; truncated `ℕ` subtraction realises the
`Math.max(0, ·)` clamp. -/
def windowSlice (closes : List ℚ) (index period : ℕ) : List ℚ :=
  (closes.take (index + 1)).drop (index + 1 - period)

/-- `computeSMA(period)`: absent until `period` closes are available, else the
rounded arithmetic mean of the trailing `period` closes. -/
def computeSMA (closes : List ℚ) (index period : ℕ) : Option ℚ :=
  if index + 1 < period then none
  else
    let values := windowSlice closes index period
    let sum := values.foldl (fun acc value => acc + value) (0 : ℚ)
    some (round (sum / period) 2)

/-- Daily gain at an index: `0` at index 0, else `max(close[i] - close[i-1], 0)`.
(The source pushes these onto a `gains` array as the map advances.) -/
def gainAt (closes : List ℚ) (i : ℕ) : ℚ :=
  if i = 0 then 0 else max (closes.getD i 0 - closes.getD (i - 1) 0) 0

/-- Daily loss at an index: `0` at index 0, else `max(-(close[i] - close[i-1]), 0)`. -/
def lossAt (closes : List ℚ) (i : ℕ) : ℚ :=
  if i = 0 then 0 else max (-(closes.getD i 0 - closes.getD (i - 1) 0)) 0

/-- The `gains` array as it stands when the map has processed every index. -/
def gains (closes : List ℚ) : List ℚ :=
  (List.range closes.length).map (gainAt closes)

/-- The `losses` array as it stands when the map has processed every index. -/
def losses (closes : List ℚ) : List ℚ :=
  (List.range closes.length).map (lossAt closes)

/-- `computeRSI(period)`: absent until `period` deltas exist; otherwise simple
averages of the trailing `period` gains and losses feed the RSI formula, with
the `averageLoss === 0 → 100` and `averageGain === 0 → 0` short-circuits. -/
def computeRSI (closes : List ℚ) (index period : ℕ) : Option ℚ :=
  if index < period then none
  else
    let recentGains := ((gains closes).take (index + 1)).drop (index + 1 - period)
    let recentLosses := ((losses closes).take (index + 1)).drop (index + 1 - period)
    let averageGain := recentGains.foldl (fun acc value => acc + value) (0 : ℚ) / period
    let averageLoss := recentLosses.foldl (fun acc value => acc + value) (0 : ℚ) / period
    if averageLoss = 0 then some 100
    else if averageGain = 0 then some 0
    else
      let rs := averageGain / averageLoss
      some (round (100 - 100 / (1 + rs)) 2)

/-- `addIndicators`: map each candle, with its index, to an enriched point. -/
def addIndicators (candles : List Candle) : List IndicatorPoint :=
  let closes := candles.map (fun candle => candle.close)
  candles.enum.map (fun p =>
    { date := p.2.date
      open_ := p.2.open_
      high := p.2.high
      low := p.2.low
      close := p.2.close
      volume := p.2.volume
      sma10 := computeSMA closes p.1 10
      sma20 := computeSMA closes p.1 20
      sma50 := computeSMA closes p.1 50
      rsi14 := computeRSI closes p.1 14 })

/-- Trend bias of the summary record. -/
inductive Bias where
  | bullish
  | bearish
  | neutral
deriving DecidableEq, Repr

/-- Confidence label of the summary record. -/
inductive Confidence where
  | high
  | medium
  | low
deriving DecidableEq, Repr

/-- The summary record returned by `analyzeNifty` (`NiftyAnalysis` interface;
`number | null` fields become `Option ℚ`). -/
structure NiftyAnalysis where
  lastClose : ℚ
  previousClose : Option ℚ
  dailyChangePct : Option ℚ
  bias : Bias
  momentumPct5Day : Option ℚ
  rsi14 : Option ℚ
  supportZone : Option ℚ
  resistanceZone : Option ℚ
  nextMoveHeadline : String
  narrative : String
  confidence : Confidence
deriving DecidableEq, Repr

/-! The source computes the summary inside one function body via `const`
bindings.  We lift each binding to a top-level definition of the candle list,
keeping its name and defining expression. -/

/-- `const lastPoint = enriched[enriched.length - 1]` (the summarizer only
reads it after the non-empty guard, so the default is never reached there). -/
def lastPoint (candles : List Candle) : IndicatorPoint :=
  (addIndicators candles).getD ((addIndicators candles).length - 1) default

/-- `const previousPoint = enriched.length > 1 ? enriched[enriched.length - 2] : null`. -/
def previousPoint (candles : List Candle) : Option IndicatorPoint :=
  if 1 < (addIndicators candles).length then
    (addIndicators candles).get? ((addIndicators candles).length - 2)
  else none

/-- `const lastClose = round(lastPoint.close)`. -/
def lastClose (candles : List Candle) : ℚ :=
  round (lastPoint candles).close

/-- `const previousClose = previousPoint ? round(previousPoint.close) : null`. -/
def previousClose (candles : List Candle) : Option ℚ :=
  (previousPoint candles).map (fun p => round p.close)

/-- `dailyChangePct`: guarded by the truthiness of `previousPoint` and of its
`close` (a close of exactly `0` disables the percentage). -/
def dailyChangePct (candles : List Candle) : Option ℚ :=
  match previousPoint candles with
  | some p =>
      if p.close ≠ 0 then
        some (round (((lastPoint candles).close - p.close) / p.close * 100) 2)
      else none
  | none => none

/-- `const rsi14 = lastPoint.rsi14 ?? null`. -/
def rsi14 (candles : List Candle) : Option ℚ :=
  (lastPoint candles).rsi14

/-- `const sma20 = lastPoint.sma20 ?? null`. -/
def sma20 (candles : List Candle) : Option ℚ :=
  (lastPoint candles).sma20

/-- `const sma50 = lastPoint.sma50 ?? null`. -/
def sma50 (candles : List Candle) : Option ℚ :=
  (lastPoint candles).sma50

/-- `const fiveDayReference = candles[candles.length - 6] ?? candles[0]`.
For `length < 6` the JS index is negative, so the `??` fallback yields
`candles[0]`; truncated `ℕ` subtraction clamps to index `0` and returns the
same candle directly, so the two sides agree for every list. -/
def fiveDayReference (candles : List Candle) : Option Candle :=
  match candles.get? (candles.length - 6) with
  | some c => some c
  | none => candles.get? 0

/-- `momentumPct5Day`: close-over-close change against the reference candle. -/
def momentumPct5Day (candles : List Candle) : Option ℚ :=
  (fiveDayReference candles).map (fun ref =>
    round (((lastPoint candles).close - ref.close) / ref.close * 100) 2)

/-- `const recentWindow = candles.slice(-15)`: the last `min(15, length)` candles. -/
def recentWindow (candles : List Candle) : List Candle :=
  candles.drop (candles.length - 15)

/-- `supportZone`: rounded `Math.min` over the window lows, absent on an empty window. -/
def supportZone (candles : List Candle) : Option ℚ :=
  match (recentWindow candles).map (fun candle => candle.low) with
  | [] => none
  | x :: xs => some (round (xs.foldl min x) 2)

/-- `resistanceZone`: rounded `Math.max` over the window highs, absent on an empty window. -/
def resistanceZone (candles : List Candle) : Option ℚ :=
  match (recentWindow candles).map (fun candle => candle.high) with
  | [] => none
  | x :: xs => some (round (xs.foldl max x) 2)

/-- The bias block: `if (sma20 && sma50) { ... }` — the JS truthiness guard
rejects `null` and the number `0` alike, then compares `lastClose` against the
two averages. -/
def bias (candles : List Candle) : Bias :=
  match sma20 candles, sma50 candles with
  | some s20, some s50 =>
      if s20 ≠ 0 ∧ s50 ≠ 0 then
        if lastClose candles > s20 ∧ s20 > s50 then Bias.bullish
        else if lastClose candles < s20 ∧ s20 < s50 then Bias.bearish
        else Bias.neutral
      else Bias.neutral
  | _, _ => Bias.neutral

/-- The confidence block: evaluated only under `rsi14 !== null && sma20 !== null
&& sma50 !== null`; the "low" test is checked before the "high" test. -/
def confidence (candles : List Candle) : Confidence :=
  match rsi14 candles, sma20 candles, sma50 candles with
  | some r, some s20, some s50 =>
      let distanceFromSma := |(lastClose candles - s20) / s20|
      if distanceFromSma < 0.005 ∧ |(s20 - s50) / s50| < 0.003 then Confidence.low
      else if distanceFromSma > 0.02 ∨ (r > 68 ∨ r < 32) then Confidence.high
      else Confidence.medium
  | _, _, _ => Confidence.medium

/-- Decimal rendering of an interpolated number.  Every value the narratives
interpolate is an exact multiple of `1/100` (output of `round`, or the literal
`100` / `0` RSI), and for such values this matches the JS string of the number:
no trailing zeros, no decimal point for integers. -/
def decStr2 (q : ℚ) : String :=
  let n : ℤ := ⌊q * 100⌋
  let sign := if n < 0 then "-" else ""
  let m := n.natAbs
  let whole := m / 100
  let frac := m % 100
  sign ++ toString whole ++
    (if frac = 0 then "" else
     if frac % 10 = 0 then "." ++ toString (frac / 10)
     else "." ++ (if frac < 10 then "0" else "") ++ toString frac)

/-- `${x ?? "fallback"}` for a nullable number. -/
def optStr (o : Option ℚ) (fallback : String) : String :=
  match o with
  | some q => decStr2 q
  | none => fallback

/-- The headline/narrative block: two mutable strings initialised to the
neutral texts, then reassigned by the `bias === "bullish"` /
`bias === "bearish"` branches with their RSI sub-branches. -/
def headlineNarrative (candles : List Candle) : String × String :=
  let bullishElse : String × String :=
    ("Upside continuation favoured",
     "Price holds above the rising 20- and 50-day averages with " ++
       decStr2 ((momentumPct5Day candles).getD 0) ++
       "% five-day momentum. A sustained move above " ++
       optStr (resistanceZone candles) "recent highs" ++
       " would extend the rally, while " ++
       optStr (supportZone candles) "nearby support" ++
       " remains the risk marker.")
  let bearishElse : String × String :=
    ("Downside pressure building",
     "Lower highs persist beneath the 20- and 50-day averages. Momentum over the last week sits at " ++
       decStr2 ((momentumPct5Day candles).getD 0) ++
       "%. Losing " ++
       optStr (supportZone candles) "recent support" ++
       " would unlock deeper retracements, while reclaiming " ++
       optStr (sma20 candles) "the 20-day SMA" ++
       " is needed to neutralise the trend.")
  match bias candles with
  | Bias.bullish =>
      match rsi14 candles with
      | some r =>
          if r > 68 then
            ("Uptrend extended but stretched",
             "Momentum stays positive with price riding above the 20-day average, though RSI at " ++
               decStr2 r ++
               " signals potential cooling. Pullbacks toward " ++
               optStr (sma20 candles) "the 20-day SMA" ++
               " could offer dip opportunities while " ++
               optStr (supportZone candles) "recent support" ++
               " holds.")
          else bullishElse
      | none => bullishElse
  | Bias.bearish =>
      match rsi14 candles with
      | some r =>
          if r < 32 then
            ("Downtrend oversold",
             "Nifty is trading beneath its short- and medium-term averages with RSI at " ++
               decStr2 r ++
               ", flagging a stretched sell-off. A pause or mean reversion bounce is possible unless " ++
               optStr (supportZone candles) "support" ++
               " breaks decisively.")
          else bearishElse
      | none => bearishElse
  | Bias.neutral =>
      ("Sideways consolidation likely",
       "Nifty appears range-bound as key moving averages converge. Traders may focus on breakouts from recent levels.")

/-- `analyzeNifty`: throws on an empty candle list, otherwise assembles the
summary record from the bindings above. -/
def analyzeNifty (candles : List Candle) : Except String NiftyAnalysis :=
  if candles.length = 0 then
    Except.error "No candles provided for analysis"
  else
    Except.ok
      { lastClose := lastClose candles
        previousClose := previousClose candles
        dailyChangePct := dailyChangePct candles
        bias := bias candles
        momentumPct5Day := momentumPct5Day candles
        rsi14 := rsi14 candles
        supportZone := supportZone candles
        resistanceZone := resistanceZone candles
        nextMoveHeadline := (headlineNarrative candles).1
        narrative := (headlineNarrative candles).2
        confidence := confidence candles }

/-! Claim-side definitions: restatements of the specification's wording, to be
compared with the source-translated definitions above, plus concrete inputs
for instantiating the theorems. -/

/-- Rounding of `v` to two decimals with ties away from zero, as the
specification words it: `v × 100` rounded to the nearest integer with ties
away from zero, then divided by `100`. -/
def roundHalfAwayFromZero (v : ℚ) : ℚ :=
  if 0 ≤ v then ((⌊v * 100 + 1/2⌋ : ℤ) : ℚ) / 100
  else -(((⌊-v * 100 + 1/2⌋ : ℤ) : ℚ) / 100)

/-- Daily gain as the claim words it: `max(close[i] - close[i-1], 0)` (at
index `0` the truncated `i - 1` makes the difference vanish, giving `0`). -/
def specGain (closes : List ℚ) (k : ℕ) : ℚ :=
  max (closes.getD k 0 - closes.getD (k - 1) 0) 0

/-- Daily loss as the claim words it: `max(-(close[i] - close[i-1]), 0)`. -/
def specLoss (closes : List ℚ) (k : ℕ) : ℚ :=
  max (-(closes.getD k 0 - closes.getD (k - 1) 0)) 0

/-- Arithmetic mean of the trailing 14 daily gains ending at index `i`. -/
def specAverageGain (closes : List ℚ) (i : ℕ) : ℚ :=
  ((List.range 14).map (fun j => specGain closes (i - 13 + j))).sum / 14

/-- Arithmetic mean of the trailing 14 daily losses ending at index `i`. -/
def specAverageLoss (closes : List ℚ) (i : ℕ) : ℚ :=
  ((List.range 14).map (fun j => specLoss closes (i - 13 + j))).sum / 14

/-- RSI(14) as the claim words it: present iff `i ≥ 14`; `100` on zero average
loss, `0` on zero average gain, else the rounded `100 - 100/(1 + RS)`. -/
def specRSI (closes : List ℚ) (i : ℕ) : Option ℚ :=
  if 14 ≤ i then
    if specAverageLoss closes i = 0 then some 100
    else if specAverageGain closes i = 0 then some 0
    else some (round (100 - 100 / (1 + specAverageGain closes i / specAverageLoss closes i)) 2)
  else none

/-- Bias rule as the specification words it: neutral unless both averages are
present and non-zero; then bullish iff the close sits above an ascending
`sma20 > sma50` pair, bearish iff below a descending pair, else neutral. -/
def specBias (lastC : ℚ) (s20? s50? : Option ℚ) : Bias :=
  match s20?, s50? with
  | some s20, some s50 =>
      if s20 = 0 ∨ s50 = 0 then Bias.neutral
      else if lastC > s20 ∧ s20 > s50 then Bias.bullish
      else if lastC < s20 ∧ s20 < s50 then Bias.bearish
      else Bias.neutral
  | _, _ => Bias.neutral

/-- Confidence rule as the specification words it: medium unless RSI and both
averages are present; then "low" when price hugs `sma20` and the averages
converge, else "high" on a stretched price or an extreme RSI, else medium;
the "low" test is evaluated first and wins when both hold. -/
def specConfidence (lastC : ℚ) (r? s20? s50? : Option ℚ) : Confidence :=
  match r?, s20?, s50? with
  | some r, some s20, some s50 =>
      if |(lastC - s20) / s20| < 0.005 ∧ |(s20 - s50) / s50| < 0.003 then
        Confidence.low
      else if |(lastC - s20) / s20| > 0.02 ∨ r > 68 ∨ r < 32 then
        Confidence.high
      else Confidence.medium
  | _, _, _ => Confidence.medium

/-- Headline rule table of the specification: dispatch on bias, refined by RSI
extremity (RSI must be present for the extremity rows to fire). -/
def specHeadline (b : Bias) (r? : Option ℚ) : String :=
  match b with
  | Bias.neutral => "Sideways consolidation likely"
  | Bias.bullish =>
      match r? with
      | some r => if r > 68 then "Uptrend extended but stretched"
                  else "Upside continuation favoured"
      | none => "Upside continuation favoured"
  | Bias.bearish =>
      match r? with
      | some r => if r < 32 then "Downtrend oversold"
                  else "Downside pressure building"
      | none => "Downside pressure building"

/-- Narrative rule table of the specification: the same dispatch as
`specHeadline` selects one of five templates, interpolating the supplied
(optional) momentum, support, resistance, `sma20` and RSI values. -/
def specNarrative (b : Bias) (r? momentum support resistance s20? : Option ℚ) :
    String :=
  match b with
  | Bias.neutral =>
      "Nifty appears range-bound as key moving averages converge. Traders may focus on breakouts from recent levels."
  | Bias.bullish =>
      match r? with
      | some r =>
          if r > 68 then
            "Momentum stays positive with price riding above the 20-day average, though RSI at " ++
              decStr2 r ++ " signals potential cooling. Pullbacks toward " ++
              optStr s20? "the 20-day SMA" ++
              " could offer dip opportunities while " ++
              optStr support "recent support" ++ " holds."
          else
            "Price holds above the rising 20- and 50-day averages with " ++
              decStr2 (momentum.getD 0) ++
              "% five-day momentum. A sustained move above " ++
              optStr resistance "recent highs" ++
              " would extend the rally, while " ++
              optStr support "nearby support" ++ " remains the risk marker."
      | none =>
          "Price holds above the rising 20- and 50-day averages with " ++
            decStr2 (momentum.getD 0) ++
            "% five-day momentum. A sustained move above " ++
            optStr resistance "recent highs" ++
            " would extend the rally, while " ++
            optStr support "nearby support" ++ " remains the risk marker."
  | Bias.bearish =>
      match r? with
      | some r =>
          if r < 32 then
            "Nifty is trading beneath its short- and medium-term averages with RSI at " ++
              decStr2 r ++
              ", flagging a stretched sell-off. A pause or mean reversion bounce is possible unless " ++
              optStr support "support" ++ " breaks decisively."
          else
            "Lower highs persist beneath the 20- and 50-day averages. Momentum over the last week sits at " ++
              decStr2 (momentum.getD 0) ++ "%. Losing " ++
              optStr support "recent support" ++
              " would unlock deeper retracements, while reclaiming " ++
              optStr s20? "the 20-day SMA" ++ " is needed to neutralise the trend."
      | none =>
          "Lower highs persist beneath the 20- and 50-day averages. Momentum over the last week sits at " ++
            decStr2 (momentum.getD 0) ++ "%. Losing " ++
            optStr support "recent support" ++
            " would unlock deeper retracements, while reclaiming " ++
            optStr s20? "the 20-day SMA" ++ " is needed to neutralise the trend."

/-- A flat candle at price `x`, used to instantiate theorems concretely. -/
def mkCandle (x : ℚ) : Candle :=
  { date := "2024-01-01", open_ := x, high := x, low := x, close := x,
    volume := none }

/-- Ten candles with closes `1..10` (the specification's own SMA example). -/
def demo10 : List Candle :=
  [mkCandle 1, mkCandle 2, mkCandle 3, mkCandle 4, mkCandle 5,
   mkCandle 6, mkCandle 7, mkCandle 8, mkCandle 9, mkCandle 10]

/-- Fifteen monotonically rising candles, enough for the first RSI value. -/
def demo15 : List Candle :=
  [mkCandle 1, mkCandle 2, mkCandle 3, mkCandle 4, mkCandle 5,
   mkCandle 6, mkCandle 7, mkCandle 8, mkCandle 9, mkCandle 10,
   mkCandle 11, mkCandle 12, mkCandle 13, mkCandle 14, mkCandle 15]

/-! Helper lemmas. -/

theorem foldl_add_eq (l : List ℚ) (a : ℚ) :
    l.foldl (fun acc value => acc + value) a = a + l.sum := by
  induction l generalizing a with
  | nil => simp
  | cons x xs ih => simp [ih, add_assoc]

theorem addIndicators_length (candles : List Candle) :
    (addIndicators candles).length = candles.length := by
  simp [addIndicators]

theorem addIndicators_getElem? (candles : List Candle) (i : ℕ) :
    (addIndicators candles)[i]? = candles[i]?.map (fun c =>
      { date := c.date, open_ := c.open_, high := c.high, low := c.low,
        close := c.close, volume := c.volume,
        sma10 := computeSMA (candles.map (fun candle => candle.close)) i 10,
        sma20 := computeSMA (candles.map (fun candle => candle.close)) i 20,
        sma50 := computeSMA (candles.map (fun candle => candle.close)) i 50,
        rsi14 := computeRSI (candles.map (fun candle => candle.close)) i 14 }) := by
  simp only [addIndicators, List.getElem?_map, List.getElem?_enum, Option.map_map]
  cases candles[i]? <;> rfl

theorem take_drop_window (l : List ℚ) (i p : ℕ) (hp : p ≤ i + 1) (hi : i < l.length) :
    (l.take (i + 1)).drop (i + 1 - p) =
      (List.range p).map (fun j => l.getD (i + 1 - p + j) 0) := by
  apply List.ext_getElem
  · simp only [List.length_drop, List.length_take, List.length_map,
      List.length_range]
    omega
  · intro n h1 h2
    have hn : n < p := by simpa using h2
    have hb : i + 1 - p + n < l.length := by omega
    simp only [List.getElem_drop, List.getElem_take, List.getElem_map,
      List.getElem_range, List.getD_eq_getElem l 0 hb]

theorem gains_getD (closes : List ℚ) (k : ℕ) (hk : k < closes.length) :
    (gains closes).getD k 0 = gainAt closes k := by
  rw [List.getD_eq_getElem _ _ (by simpa [gains] using hk)]
  simp [gains]

theorem losses_getD (closes : List ℚ) (k : ℕ) (hk : k < closes.length) :
    (losses closes).getD k 0 = lossAt closes k := by
  rw [List.getD_eq_getElem _ _ (by simpa [losses] using hk)]
  simp [losses]

theorem gains_nonneg (closes : List ℚ) : ∀ x ∈ gains closes, 0 ≤ x := by
  intro x hx
  simp only [gains, List.mem_map] at hx
  obtain ⟨k, -, rfl⟩ := hx
  unfold gainAt
  split
  · exact le_refl 0
  · exact le_max_right _ _

theorem losses_nonneg (closes : List ℚ) : ∀ x ∈ losses closes, 0 ≤ x := by
  intro x hx
  simp only [losses, List.mem_map] at hx
  obtain ⟨k, -, rfl⟩ := hx
  unfold lossAt
  split
  · exact le_refl 0
  · exact le_max_right _ _

theorem slice_sum_nonneg (l : List ℚ) (hl : ∀ x ∈ l, 0 ≤ x) (a b : ℕ) :
    0 ≤ ((l.take a).drop b).foldl (fun acc value => acc + value) (0 : ℚ) := by
  rw [foldl_add_eq, zero_add]
  exact List.sum_nonneg (fun x hx =>
    hl x (List.mem_of_mem_take (List.mem_of_mem_drop hx)))

theorem round_mono {x y : ℚ} (h : x ≤ y) : round x 2 ≤ round y 2 := by
  simp only [round, mathRound]
  have hf : ⌊x * 10 ^ 2 + 1/2⌋ ≤ ⌊y * 10 ^ 2 + 1/2⌋ := by
    apply Int.floor_le_floor
    have : x * 10 ^ 2 ≤ y * 10 ^ 2 := by nlinarith
    linarith
  have h100 : (0 : ℚ) < 10 ^ 2 := by norm_num
  exact (div_le_div_iff_of_pos_right h100).mpr (Int.cast_le.mpr hf)

theorem getLast?_addIndicators (candles : List Candle) (h : candles ≠ []) :
    (addIndicators candles).getLast? = some (lastPoint candles) := by
  have hlen : 0 < (addIndicators candles).length := by
    rw [addIndicators_length]
    exact List.length_pos.mpr h
  rw [List.getLast?_eq_getElem?, lastPoint,
    List.getElem?_eq_getElem (by omega),
    List.getD_eq_getElem _ _ (by omega)]

theorem foldl_min_mem (x : ℚ) (xs : List ℚ) :
    xs.foldl min x = x ∨ xs.foldl min x ∈ xs := by
  induction xs generalizing x with
  | nil => exact Or.inl rfl
  | cons y ys ih =>
    rcases ih (min x y) with h | h
    · rcases min_choice x y with h2 | h2
      · exact Or.inl (by rw [List.foldl_cons, h, h2])
      · exact Or.inr (by rw [List.foldl_cons, h, h2]; exact List.mem_cons_self y ys)
    · exact Or.inr (List.mem_cons_of_mem y h)

theorem foldl_min_le (x : ℚ) (xs : List ℚ) :
    xs.foldl min x ≤ x ∧ ∀ y ∈ xs, xs.foldl min x ≤ y := by
  induction xs generalizing x with
  | nil => exact ⟨le_refl x, by simp⟩
  | cons z zs ih =>
    obtain ⟨h1, h2⟩ := ih (min x z)
    refine ⟨by simpa using h1.trans (min_le_left x z), ?_⟩
    intro y hy
    rcases List.mem_cons.mp hy with rfl | hy
    · simpa using h1.trans (min_le_right x y)
    · simpa using h2 y hy

theorem foldl_max_mem (x : ℚ) (xs : List ℚ) :
    xs.foldl max x = x ∨ xs.foldl max x ∈ xs := by
  induction xs generalizing x with
  | nil => exact Or.inl rfl
  | cons y ys ih =>
    rcases ih (max x y) with h | h
    · rcases max_choice x y with h2 | h2
      · exact Or.inl (by rw [List.foldl_cons, h, h2])
      · exact Or.inr (by rw [List.foldl_cons, h, h2]; exact List.mem_cons_self y ys)
    · exact Or.inr (List.mem_cons_of_mem y h)

theorem foldl_max_le (x : ℚ) (xs : List ℚ) :
    x ≤ xs.foldl max x ∧ ∀ y ∈ xs, y ≤ xs.foldl max x := by
  induction xs generalizing x with
  | nil => exact ⟨le_refl x, by simp⟩
  | cons z zs ih =>
    obtain ⟨h1, h2⟩ := ih (max x z)
    refine ⟨by simpa using (le_max_left x z).trans h1, ?_⟩
    intro y hy
    rcases List.mem_cons.mp hy with rfl | hy
    · simpa using (le_max_right x y).trans h1
    · simpa using h2 y hy

theorem computeSMA_spec (closes : List ℚ) (i p : ℕ) (hi : i < closes.length) :
    computeSMA closes i p =
      if p ≤ i + 1 then
        some (round ((((List.range p).map
          (fun j => closes.getD (i + 1 - p + j) 0)).sum) / p) 2)
      else none := by
  simp only [computeSMA, windowSlice]
  by_cases h : i + 1 < p
  · rw [if_pos h, if_neg (by omega)]
  · rw [if_neg h, if_pos (by omega), take_drop_window closes i p (by omega) hi,
      foldl_add_eq, zero_add]

theorem gainAt_eq_specGain (closes : List ℚ) (k : ℕ) :
    gainAt closes k = specGain closes k := by
  unfold gainAt specGain
  by_cases hk : k = 0
  · subst hk; simp
  · rw [if_neg hk]

theorem lossAt_eq_specLoss (closes : List ℚ) (k : ℕ) :
    lossAt closes k = specLoss closes k := by
  unfold lossAt specLoss
  by_cases hk : k = 0
  · subst hk; simp
  · rw [if_neg hk]

theorem computeRSI_eq_specRSI (closes : List ℚ) (i : ℕ) (hi : i < closes.length) :
    computeRSI closes i 14 = specRSI closes i := by
  simp only [computeRSI, specRSI, Nat.cast_ofNat]
  by_cases h : i < 14
  · rw [if_pos h, if_neg (by omega)]
  · have hg : ((gains closes).take (i + 1)).drop (i + 1 - 14) =
        (List.range 14).map (fun j => specGain closes (i - 13 + j)) := by
      rw [take_drop_window _ i 14 (by omega) (by simpa [gains] using hi)]
      apply List.map_congr_left
      intro j hj
      have hj' : j < 14 := List.mem_range.mp hj
      have hidx : i + 1 - 14 + j = i - 13 + j := by omega
      rw [hidx, gains_getD closes _ (by omega), gainAt_eq_specGain]
    have hl : ((losses closes).take (i + 1)).drop (i + 1 - 14) =
        (List.range 14).map (fun j => specLoss closes (i - 13 + j)) := by
      rw [take_drop_window _ i 14 (by omega) (by simpa [losses] using hi)]
      apply List.map_congr_left
      intro j hj
      have hj' : j < 14 := List.mem_range.mp hj
      have hidx : i + 1 - 14 + j = i - 13 + j := by omega
      rw [hidx, losses_getD closes _ (by omega), lossAt_eq_specLoss]
    rw [if_neg h, if_pos (show 14 ≤ i by omega), hg, hl, foldl_add_eq, zero_add,
      foldl_add_eq, zero_add]
    simp only [specAverageGain, specAverageLoss]

/-- C1: for every candle list, the enriched point at index `i` carries
`SMA(p)` for `p ∈ {10, 20, 50}` exactly when `i + 1 ≥ p`, and then its value
is the 2dp-rounded arithmetic mean of the closes at indices
`[i - p + 1, i]`; when `i + 1 < p` the field is absent. -/
theorem addIndicators_sma_spec (candles : List Candle) (i : ℕ)
    (pt : IndicatorPoint) (h : (addIndicators candles)[i]? = some pt) :
    (pt.sma10 = if 10 ≤ i + 1 then
        some (round ((((List.range 10).map (fun j =>
          (candles.map (fun candle => candle.close)).getD (i + 1 - 10 + j) 0)).sum) / 10) 2)
      else none) ∧
    (pt.sma20 = if 20 ≤ i + 1 then
        some (round ((((List.range 20).map (fun j =>
          (candles.map (fun candle => candle.close)).getD (i + 1 - 20 + j) 0)).sum) / 20) 2)
      else none) ∧
    (pt.sma50 = if 50 ≤ i + 1 then
        some (round ((((List.range 50).map (fun j =>
          (candles.map (fun candle => candle.close)).getD (i + 1 - 50 + j) 0)).sum) / 50) 2)
      else none) := by
  have hi : i < candles.length := by
    by_contra hcon
    rw [List.getElem?_eq_none (by rw [addIndicators_length]; omega)] at h
    exact Option.noConfusion h
  rw [addIndicators_getElem?, List.getElem?_eq_getElem hi, Option.map_some'] at h
  injection h with h
  subst h
  refine ⟨?_, ?_, ?_⟩
  · simpa using computeSMA_spec (candles.map (fun candle => candle.close)) i 10
      (by simpa using hi)
  · simpa using computeSMA_spec (candles.map (fun candle => candle.close)) i 20
      (by simpa using hi)
  · simpa using computeSMA_spec (candles.map (fun candle => candle.close)) i 50
      (by simpa using hi)

/-- Witness for C1: on ten candles with closes `1..10`, `sma10` at the last
index evaluates to `5.5`. -/
theorem addIndicators_sma_spec_witness :
    ((addIndicators demo10).getD 9 default).sma10 = some (11/2) := by
  have hlen : 9 < (addIndicators demo10).length := by
    rw [addIndicators_length]; simp [demo10]
  have h : (addIndicators demo10)[9]? =
      some ((addIndicators demo10).getD 9 default) := by
    rw [List.getD_eq_getElem _ _ hlen, List.getElem?_eq_getElem hlen]
  rw [(addIndicators_sma_spec demo10 9 _ h).1, if_pos (by norm_num)]
  norm_num [demo10, mkCandle, List.range_succ, round, mathRound]

/-- C2: for every candle list, the enriched point at index `i` carries RSI(14)
exactly when `i ≥ 14`, with value determined by the trailing arithmetic means
of the daily gain/loss series (`gain = max(Δ, 0)`, `loss = max(-Δ, 0)`, both
`0` at index 0): `100` on zero average loss, `0` on zero average gain, else
the 2dp-rounded `100 - 100/(1 + averageGain/averageLoss)`. -/
theorem addIndicators_rsi_spec (candles : List Candle) (i : ℕ)
    (pt : IndicatorPoint) (h : (addIndicators candles)[i]? = some pt) :
    pt.rsi14 = specRSI (candles.map (fun candle => candle.close)) i := by
  have hi : i < candles.length := by
    by_contra hcon
    rw [List.getElem?_eq_none (by rw [addIndicators_length]; omega)] at h
    exact Option.noConfusion h
  rw [addIndicators_getElem?, List.getElem?_eq_getElem hi, Option.map_some'] at h
  injection h with h
  subst h
  simpa using computeRSI_eq_specRSI (candles.map (fun candle => candle.close)) i
    (by simpa using hi)

/-- Witness for C2: on fifteen rising candles, RSI(14) at index 14 evaluates
to `100` (zero average loss). -/
theorem addIndicators_rsi_spec_witness :
    ((addIndicators demo15).getD 14 default).rsi14 = some 100 := by
  have hlen : 14 < (addIndicators demo15).length := by
    rw [addIndicators_length]; simp [demo15]
  have h : (addIndicators demo15)[14]? =
      some ((addIndicators demo15).getD 14 default) := by
    rw [List.getD_eq_getElem _ _ hlen, List.getElem?_eq_getElem hlen]
  rw [addIndicators_rsi_spec demo15 14 _ h]
  norm_num [specRSI, specAverageLoss, specLoss, demo15, mkCandle,
    List.range_succ]

/-- C8: `addIndicators` returns one point per input candle, in the same order,
and each point carries the underlying candle's date, open, high, low, close
and volume unchanged (so in particular the empty input yields the empty
output, and lengths always agree). -/
theorem addIndicators_preserves_candles (candles : List Candle) :
    (addIndicators candles).length = candles.length ∧
    ∀ i : ℕ,
      ((addIndicators candles)[i]?).map
        (fun p => (p.date, p.open_, p.high, p.low, p.close, p.volume)) =
      (candles[i]?).map
        (fun c => (c.date, c.open_, c.high, c.low, c.close, c.volume)) := by
  refine ⟨addIndicators_length candles, ?_⟩
  intro i
  rw [addIndicators_getElem?]
  cases candles[i]? <;> rfl

/-- C3: `analyzeNifty` returns the "no data" error exactly on the empty candle
list, and on every non-empty list it returns a complete record (the embedding
is total, so no other failure path exists). -/
theorem analyzeNifty_error_iff (candles : List Candle) :
    (analyzeNifty candles = Except.error "No candles provided for analysis" ↔
      candles = []) ∧
    (candles ≠ [] → ∃ rec, analyzeNifty candles = Except.ok rec) := by
  unfold analyzeNifty
  constructor
  · constructor
    · intro h
      by_cases hl : candles.length = 0
      · exact List.length_eq_zero.mp hl
      · rw [if_neg hl] at h
        exact Except.noConfusion h
    · intro h
      subst h
      rfl
  · intro h
    rw [if_neg (by simpa [List.length_eq_zero] using h)]
    exact ⟨_, rfl⟩

/-- Witness for C3: on a one-candle list the analyzer succeeds. -/
theorem analyzeNifty_error_iff_witness :
    ∃ rec, analyzeNifty [mkCandle 5] = Except.ok rec :=
  (analyzeNifty_error_iff [mkCandle 5]).2 (by simp)

/-- C7 counterexample: the source's rounding is JavaScript `Math.round`
semantics (ties toward positive infinity), not ties away from zero: at
`v = -0.005` the code rounds to `0` while round-half-away-from-zero gives
`-0.01`. -/
theorem round_not_half_away_from_zero :
    Nifty.round (-(1/200)) 2 = 0 ∧
    roundHalfAwayFromZero (-(1/200)) = -(1/100) ∧
    Nifty.round (-(1/200)) 2 ≠ roundHalfAwayFromZero (-(1/200)) := by
  refine ⟨?_, ?_, ?_⟩ <;>
    norm_num [Nifty.round, mathRound, roundHalfAwayFromZero]

/-- C7 (amended): the shared 2-decimal rounding rounds `v × 100` to the
nearest integer with ties toward positive infinity (JS `Math.round`), then
divides by `100`: the result is `n/100` for the unique integer `n` with
`n - 1/2 ≤ 100·v < n + 1/2`. -/
theorem round_ties_toward_posinf (v : ℚ) :
    ∃ n : ℤ, Nifty.round v 2 = (n : ℚ) / 100 ∧
      (n : ℚ) - 1/2 ≤ v * 100 ∧ v * 100 < (n : ℚ) + 1/2 := by
  refine ⟨⌊v * 100 + 1/2⌋, ?_, ?_, ?_⟩
  · show (mathRound (v * 10 ^ 2) : ℚ) / 10 ^ 2 = _
    norm_num [mathRound]
  · have h := Int.floor_le (v * 100 + 1/2)
    linarith
  · have h := Int.lt_floor_add_one (v * 100 + 1/2)
    push_cast at h
    linarith

theorem rsi_formula_range (G L : ℚ) (hG0 : 0 ≤ G) (hL0 : 0 ≤ L)
    (hG : ¬G = 0) (hL : ¬L = 0) :
    0 ≤ round (100 - 100 / (1 + G / L)) 2 ∧
      round (100 - 100 / (1 + G / L)) 2 ≤ 100 := by
  have hGpos : 0 < G := lt_of_le_of_ne hG0 (Ne.symm hG)
  have hLpos : 0 < L := lt_of_le_of_ne hL0 (Ne.symm hL)
  have hrs : 0 < G / L := div_pos hGpos hLpos
  have hx1 : 100 / (1 + G / L) ≤ 100 := div_le_self (by norm_num) (by linarith)
  have hx2 : 0 < 100 / (1 + G / L) := div_pos (by norm_num) (by linarith)
  constructor
  · calc (0 : ℚ) = round 0 2 := by norm_num [round, mathRound]
      _ ≤ round (100 - 100 / (1 + G / L)) 2 := round_mono (by linarith)
  · calc round (100 - 100 / (1 + G / L)) 2 ≤ round 100 2 :=
        round_mono (by linarith)
      _ = 100 := by norm_num [round, mathRound]

theorem computeRSI_range (closes : List ℚ) (i : ℕ) (r : ℚ)
    (h : computeRSI closes i 14 = some r) : 0 ≤ r ∧ r ≤ 100 := by
  simp only [computeRSI] at h
  by_cases hcase : i < 14
  · rw [if_pos hcase] at h
    exact Option.noConfusion h
  · rw [if_neg hcase] at h
    have hGn : (0 : ℚ) ≤
        (((gains closes).take (i + 1)).drop (i + 1 - 14)).foldl
          (fun acc value => acc + value) (0 : ℚ) / ((14 : ℕ) : ℚ) :=
      div_nonneg (slice_sum_nonneg _ (gains_nonneg closes) _ _) (by norm_num)
    have hLn : (0 : ℚ) ≤
        (((losses closes).take (i + 1)).drop (i + 1 - 14)).foldl
          (fun acc value => acc + value) (0 : ℚ) / ((14 : ℕ) : ℚ) :=
      div_nonneg (slice_sum_nonneg _ (losses_nonneg closes) _ _) (by norm_num)
    split_ifs at h with h1 h2
    · injection h with h
      subst h
      norm_num
    · injection h with h
      subst h
      norm_num
    · injection h with h
      subst h
      exact rsi_formula_range _ _ hGn hLn h2 h1

/-- C9: whenever an enriched point carries an RSI value, that value lies in
the closed interval `[0, 100]`: the zero-loss branch yields `100`, the
zero-gain branch yields `0`, and the rounded general formula stays inside
the interval. -/
theorem addIndicators_rsi_range (candles : List Candle) (i : ℕ)
    (pt : IndicatorPoint) (h : (addIndicators candles)[i]? = some pt)
    (r : ℚ) (hr : pt.rsi14 = some r) : 0 ≤ r ∧ r ≤ 100 := by
  have hi : i < candles.length := by
    by_contra hcon
    rw [List.getElem?_eq_none (by rw [addIndicators_length]; omega)] at h
    exact Option.noConfusion h
  rw [addIndicators_getElem?, List.getElem?_eq_getElem hi, Option.map_some'] at h
  injection h with h
  subst h
  exact computeRSI_range _ i r (by simpa using hr)

/-- Witness for C9: at the first RSI of the rising fifteen-candle list, the
carried value `100` satisfies the bounds. -/
theorem addIndicators_rsi_range_witness :
    ((addIndicators demo15).getD 14 default).rsi14 = some 100 ∧
      (0 : ℚ) ≤ 100 ∧ (100 : ℚ) ≤ 100 := by
  have hlen : 14 < (addIndicators demo15).length := by
    rw [addIndicators_length]; simp [demo15]
  have h : (addIndicators demo15)[14]? =
      some ((addIndicators demo15).getD 14 default) := by
    rw [List.getD_eq_getElem _ _ hlen, List.getElem?_eq_getElem hlen]
  have hr : ((addIndicators demo15).getD 14 default).rsi14 = some 100 := by
    have h2 := addIndicators_getElem? demo15 14
    rw [h, show demo15[14]? = some (mkCandle 15) from rfl, Option.map_some'] at h2
    injection h2 with h2
    rw [h2]
    show computeRSI (demo15.map (fun candle => candle.close)) 14 14 = some 100
    rw [computeRSI_eq_specRSI _ 14 (by simp [demo15])]
    norm_num [specRSI, specAverageLoss, specLoss, demo15, mkCandle,
      List.range_succ]
  exact ⟨hr, addIndicators_rsi_range demo15 14 _ h 100 hr⟩

theorem analyzeNifty_ok (candles : List Candle) (h : candles ≠ []) :
    analyzeNifty candles = Except.ok
      { lastClose := lastClose candles
        previousClose := previousClose candles
        dailyChangePct := dailyChangePct candles
        bias := bias candles
        momentumPct5Day := momentumPct5Day candles
        rsi14 := rsi14 candles
        supportZone := supportZone candles
        resistanceZone := resistanceZone candles
        nextMoveHeadline := (headlineNarrative candles).1
        narrative := (headlineNarrative candles).2
        confidence := confidence candles } := by
  unfold analyzeNifty
  rw [if_neg (by simpa [List.length_eq_zero] using h)]

theorem bias_eq_specBias (candles : List Candle) :
    bias candles = specBias (lastClose candles) (sma20 candles) (sma50 candles) := by
  unfold bias specBias
  cases h20 : sma20 candles with
  | none => rfl
  | some s20 =>
    cases h50 : sma50 candles with
    | none => rfl
    | some s50 =>
      dsimp only
      split_ifs <;> first | rfl | tauto

/-- C4: for every non-empty candle list the analyzer succeeds, and its bias
equals the specification's rule applied to the record's `lastClose` and the
last enriched point's `sma20`/`sma50`: neutral unless both are present and
non-zero, bullish iff `lastClose > sma20 > sma50`, bearish iff
`lastClose < sma20 < sma50`, neutral otherwise (a value of exactly `0` is
treated as absent). -/
theorem analyzeNifty_bias_spec (candles : List Candle) (h : candles ≠ [])
    (pt : IndicatorPoint) (hpt : (addIndicators candles).getLast? = some pt) :
    ∃ rec, analyzeNifty candles = Except.ok rec ∧
      rec.bias = specBias rec.lastClose pt.sma20 pt.sma50 := by
  have hpt2 : pt = lastPoint candles := by
    rw [getLast?_addIndicators candles h] at hpt
    injection hpt with hpt
    exact hpt.symm
  subst hpt2
  exact ⟨_, analyzeNifty_ok candles h, bias_eq_specBias candles⟩

/-- Witness for C4 at a one-candle list (both SMAs absent, bias neutral). -/
theorem analyzeNifty_bias_spec_witness :
    ∃ rec, analyzeNifty [mkCandle 5] = Except.ok rec ∧
      rec.bias = specBias rec.lastClose (lastPoint [mkCandle 5]).sma20
        (lastPoint [mkCandle 5]).sma50 :=
  analyzeNifty_bias_spec [mkCandle 5] (by simp) (lastPoint [mkCandle 5])
    (getLast?_addIndicators [mkCandle 5] (by simp))

theorem confidence_eq_specConfidence (candles : List Candle) :
    confidence candles = specConfidence (lastClose candles) (rsi14 candles)
      (sma20 candles) (sma50 candles) := by
  unfold confidence specConfidence
  cases hr : rsi14 candles with
  | none => rfl
  | some r =>
    cases h20 : sma20 candles with
    | none => rfl
    | some s20 =>
      cases h50 : sma50 candles with
      | none => rfl
      | some s50 => rfl

/-- C5: for every non-empty candle list the analyzer succeeds, and its
confidence equals the specification's rule applied to the record's
`lastClose` and the last enriched point's `rsi14`/`sma20`/`sma50`: medium
when any is absent; otherwise "low" when the price hugs `sma20` and the two
averages converge (checked first, taking precedence), else "high" on a
stretched price or extreme RSI, else medium. -/
theorem analyzeNifty_confidence_spec (candles : List Candle) (h : candles ≠ [])
    (pt : IndicatorPoint) (hpt : (addIndicators candles).getLast? = some pt) :
    ∃ rec, analyzeNifty candles = Except.ok rec ∧
      rec.confidence = specConfidence rec.lastClose pt.rsi14 pt.sma20 pt.sma50 := by
  have hpt2 : pt = lastPoint candles := by
    rw [getLast?_addIndicators candles h] at hpt
    injection hpt with hpt
    exact hpt.symm
  subst hpt2
  exact ⟨_, analyzeNifty_ok candles h, confidence_eq_specConfidence candles⟩

/-- Witness for C5 at a one-candle list (all indicators absent, confidence
medium). -/
theorem analyzeNifty_confidence_spec_witness :
    ∃ rec, analyzeNifty [mkCandle 5] = Except.ok rec ∧
      rec.confidence = specConfidence rec.lastClose
        (lastPoint [mkCandle 5]).rsi14 (lastPoint [mkCandle 5]).sma20
        (lastPoint [mkCandle 5]).sma50 :=
  analyzeNifty_confidence_spec [mkCandle 5] (by simp) (lastPoint [mkCandle 5])
    (getLast?_addIndicators [mkCandle 5] (by simp))

theorem headlineNarrative_eq_spec (candles : List Candle) :
    (headlineNarrative candles).1 = specHeadline (bias candles) (rsi14 candles) ∧
    (headlineNarrative candles).2 = specNarrative (bias candles) (rsi14 candles)
      (momentumPct5Day candles) (supportZone candles) (resistanceZone candles)
      (sma20 candles) := by
  unfold headlineNarrative specHeadline specNarrative
  cases hb : bias candles with
  | neutral => exact ⟨rfl, rfl⟩
  | bullish =>
    cases hr : rsi14 candles with
    | none => exact ⟨rfl, rfl⟩
    | some r =>
      dsimp only
      split_ifs <;> exact ⟨rfl, rfl⟩
  | bearish =>
    cases hr : rsi14 candles with
    | none => exact ⟨rfl, rfl⟩
    | some r =>
      dsimp only
      split_ifs <;> exact ⟨rfl, rfl⟩

/-- C6: for every non-empty candle list the analyzer succeeds, its headline
is given by the fixed rule table (neutral → "Sideways consolidation likely";
bullish with RSI present and above 68 → "Uptrend extended but stretched",
otherwise "Upside continuation favoured"; bearish with RSI present and below
32 → "Downtrend oversold", otherwise "Downside pressure building"), and its
narrative is selected by the same dispatch. -/
theorem analyzeNifty_headline_spec (candles : List Candle) (h : candles ≠ [])
    (pt : IndicatorPoint) (hpt : (addIndicators candles).getLast? = some pt) :
    ∃ rec, analyzeNifty candles = Except.ok rec ∧
      rec.nextMoveHeadline = specHeadline rec.bias pt.rsi14 ∧
      rec.narrative = specNarrative rec.bias pt.rsi14 rec.momentumPct5Day
        rec.supportZone rec.resistanceZone pt.sma20 := by
  have hpt2 : pt = lastPoint candles := by
    rw [getLast?_addIndicators candles h] at hpt
    injection hpt with hpt
    exact hpt.symm
  subst hpt2
  exact ⟨_, analyzeNifty_ok candles h, (headlineNarrative_eq_spec candles).1,
    (headlineNarrative_eq_spec candles).2⟩

/-- Witness for C6 at a one-candle list (neutral row of the rule table). -/
theorem analyzeNifty_headline_spec_witness :
    ∃ rec, analyzeNifty [mkCandle 5] = Except.ok rec ∧
      rec.nextMoveHeadline = specHeadline rec.bias (lastPoint [mkCandle 5]).rsi14 ∧
      rec.narrative = specNarrative rec.bias (lastPoint [mkCandle 5]).rsi14
        rec.momentumPct5Day rec.supportZone rec.resistanceZone
        (lastPoint [mkCandle 5]).sma20 :=
  analyzeNifty_headline_spec [mkCandle 5] (by simp) (lastPoint [mkCandle 5])
    (getLast?_addIndicators [mkCandle 5] (by simp))

theorem supportZone_spec (candles : List Candle) (h : candles ≠ []) :
    ∃ m, supportZone candles = some (round m 2) ∧
      (∃ c ∈ recentWindow candles, c.low = m) ∧
      (∀ c ∈ recentWindow candles, m ≤ c.low) := by
  have hw : recentWindow candles ≠ [] := by
    have hlen : 0 < candles.length := List.length_pos.mpr h
    unfold recentWindow
    intro hcon
    have := congrArg List.length hcon
    simp only [List.length_drop, List.length_nil] at this
    omega
  cases hmap : (recentWindow candles).map (fun candle => candle.low) with
  | nil => exact absurd (List.map_eq_nil_iff.mp hmap) hw
  | cons x xs =>
    refine ⟨xs.foldl min x, ?_, ?_, ?_⟩
    · unfold supportZone
      rw [hmap]
    · have hmem : xs.foldl min x ∈ x :: xs := by
        rcases foldl_min_mem x xs with h1 | h1
        · rw [h1]; exact List.mem_cons_self x xs
        · exact List.mem_cons_of_mem x h1
      rw [← hmap] at hmem
      obtain ⟨c, hc, hceq⟩ := List.mem_map.mp hmem
      exact ⟨c, hc, hceq⟩
    · intro c hc
      have hcl : c.low ∈ x :: xs := by
        rw [← hmap]
        exact List.mem_map_of_mem _ hc
      rcases List.mem_cons.mp hcl with h1 | h1
      · rw [h1]; exact (foldl_min_le x xs).1
      · exact (foldl_min_le x xs).2 _ h1

theorem resistanceZone_spec (candles : List Candle) (h : candles ≠ []) :
    ∃ M, resistanceZone candles = some (round M 2) ∧
      (∃ c ∈ recentWindow candles, c.high = M) ∧
      (∀ c ∈ recentWindow candles, c.high ≤ M) := by
  have hw : recentWindow candles ≠ [] := by
    have hlen : 0 < candles.length := List.length_pos.mpr h
    unfold recentWindow
    intro hcon
    have := congrArg List.length hcon
    simp only [List.length_drop, List.length_nil] at this
    omega
  cases hmap : (recentWindow candles).map (fun candle => candle.high) with
  | nil => exact absurd (List.map_eq_nil_iff.mp hmap) hw
  | cons x xs =>
    refine ⟨xs.foldl max x, ?_, ?_, ?_⟩
    · unfold resistanceZone
      rw [hmap]
    · have hmem : xs.foldl max x ∈ x :: xs := by
        rcases foldl_max_mem x xs with h1 | h1
        · rw [h1]; exact List.mem_cons_self x xs
        · exact List.mem_cons_of_mem x h1
      rw [← hmap] at hmem
      obtain ⟨c, hc, hceq⟩ := List.mem_map.mp hmem
      exact ⟨c, hc, hceq⟩
    · intro c hc
      have hcl : c.high ∈ x :: xs := by
        rw [← hmap]
        exact List.mem_map_of_mem _ hc
      rcases List.mem_cons.mp hcl with h1 | h1
      · rw [h1]; exact (foldl_max_le x xs).1
      · exact (foldl_max_le x xs).2 _ h1

/-- C10: for every non-empty candle list whose candles satisfy `low ≤ high`,
the analyzer succeeds with both zones present: the support zone is the
2dp-rounded minimum low and the resistance zone the 2dp-rounded maximum high
over the trailing window of the last `min(15, length)` candles, and the
support zone does not exceed the resistance zone. -/
theorem analyzeNifty_zones_spec (candles : List Candle) (h : candles ≠ [])
    (hlh : ∀ c ∈ candles, c.low ≤ c.high) :
    ∃ rec, analyzeNifty candles = Except.ok rec ∧
      ∃ m M, rec.supportZone = some (round m 2) ∧
        rec.resistanceZone = some (round M 2) ∧
        (∃ c ∈ candles.drop (candles.length - 15), c.low = m) ∧
        (∀ c ∈ candles.drop (candles.length - 15), m ≤ c.low) ∧
        (∃ c ∈ candles.drop (candles.length - 15), c.high = M) ∧
        (∀ c ∈ candles.drop (candles.length - 15), c.high ≤ M) ∧
        round m 2 ≤ round M 2 := by
  obtain ⟨m, hs, ⟨cm, hcm, hcmeq⟩, hmin⟩ := supportZone_spec candles h
  obtain ⟨M, hrz, ⟨cM, hcM, hcMeq⟩, hmax⟩ := resistanceZone_spec candles h
  have hmM : m ≤ M := by
    calc m = cm.low := hcmeq.symm
      _ ≤ cm.high := hlh cm (List.mem_of_mem_drop hcm)
      _ ≤ M := hmax cm hcm
  exact ⟨_, analyzeNifty_ok candles h, m, M, hs, hrz, ⟨cm, hcm, hcmeq⟩, hmin,
    ⟨cM, hcM, hcMeq⟩, hmax, round_mono hmM⟩

/-- Witness for C10 at a one-candle list: support and resistance both come
from the single candle. -/
theorem analyzeNifty_zones_spec_witness :
    ∃ rec, analyzeNifty [mkCandle 5] = Except.ok rec ∧
      ∃ m M, rec.supportZone = some (round m 2) ∧
        rec.resistanceZone = some (round M 2) ∧
        (∃ c ∈ [mkCandle 5].drop ([mkCandle 5].length - 15), c.low = m) ∧
        (∀ c ∈ [mkCandle 5].drop ([mkCandle 5].length - 15), m ≤ c.low) ∧
        (∃ c ∈ [mkCandle 5].drop ([mkCandle 5].length - 15), c.high = M) ∧
        (∀ c ∈ [mkCandle 5].drop ([mkCandle 5].length - 15), c.high ≤ M) ∧
        round m 2 ≤ round M 2 :=
  analyzeNifty_zones_spec [mkCandle 5] (by simp) (by simp [mkCandle])

end Nifty
